import Mathlib

/-!
Shallow embedding of `plugins/outputs/yandex_cloud_monitoring/yandex_cloud_monitoring.go`.

Modelling conventions:
* Instants and durations are integer nanoseconds (Go `time.Time` / `time.Duration`).
  The two `time.Now()` calls inside `send` (the expiry check on line 215 and the
  expiration update on line 221) are identified with the single injected query
  instant `now`, following the spec's injected-time model of the credential cache.
* The int64 wraparound of `time.Duration(expiresIn) * time.Second` is modelled
  explicitly by `wrap64`.
* Network interactions are oracles passed as arguments: a `FetchOutcome` stands for
  the metadata GET plus JSON unmarshal at the token URL, an `HTTPResponse` for the
  outcome of the final POST (including the `io.ReadAll` of its body), and an
  `Except String String` for the folder-id metadata GET performed by `Connect`.
* Go maps are modelled as association lists in iteration order; map assignment is
  `mapInsert` (overwrite the key if present, append otherwise).
-/

namespace YCM

/-- Wraparound of a mathematical integer to a signed 64-bit value, as Go `int64`
multiplication wraps in `time.Duration(expiresIn) * time.Second`. -/
def wrap64 (x : ℤ) : ℤ := (x + 2 ^ 63) % 2 ^ 64 - 2 ^ 63

/-- Nanoseconds per second: the value of Go `time.Second`. -/
def nsPerSecond : ℤ := 1000000000

/-- Default write endpoint (source constant `defaultEndpoint`). -/
def defaultEndpoint : String := "https://monitoring.api.cloud.yandex.net/monitoring/v2/data/write"

/-- Default token metadata URL (source constant `defaultMetadataTokenURL`). -/
def defaultMetadataTokenURL : String :=
  "http://169.254.169.254/computeMetadata/v1/instance/service-accounts/default/token"

/-- Default folder-id metadata URL (source constant `defaultMetadataFolderURL`). -/
def defaultMetadataFolderURL : String :=
  "http://169.254.169.254/computeMetadata/v1/instance/vendor/folder-id"

/-- Parsed token metadata response (source struct `metadataIamToken`):
JSON fields `access_token`, `expires_in` (int64 seconds), `token_type`. -/
structure MetadataIamToken where
  accessToken : String
  expiresIn : ℤ
  tokenType : String
deriving DecidableEq, Repr

/-- Outcome of `getResponseFromMetadata` on the token URL followed by
`json.Unmarshal`: a fetch-level error (transport failure or non-2xx status,
lines 165-186), an unmarshal error (line 195), or a parsed `metadataIamToken`. -/
inductive FetchOutcome where
  | fetchErr (e : String)
  | parseErr (e : String)
  | ok (t : MetadataIamToken)
deriving DecidableEq, Repr

/-- Embedding of `getIAMTokenFromMetadata` (lines 188-202): propagate fetch and
unmarshal errors; reject an empty `access_token` or a zero `expires_in`;
otherwise return the token and its lifetime in seconds. -/
def getIAMTokenFromMetadata (tokenURL : String) (fetch : FetchOutcome) :
    Except String (String × ℤ) :=
  match fetch with
  | .fetchErr e => .error e
  | .parseErr e => .error e
  | .ok m =>
    if m.accessToken = "" ∨ m.expiresIn = 0 then
      .error ("unable to fetch authentication credentials " ++ tokenURL)
    else
      .ok (m.accessToken, m.expiresIn)

/-- Outcome of the final POST (`a.client.Do` on line 226 plus the `io.ReadAll`
on line 232): either a transport-level error from `Do`, or a response carrying
`resp.StatusCode`, `resp.Status`, and whether the body read failed. -/
inductive HTTPResponse where
  | transportErr (e : String)
  | resp (statusCode : ℕ) (status : String) (readErr : Bool)
deriving DecidableEq, Repr

/-- Embedding of the delivery classification in `send` (lines 226-237): a `Do`
error is returned unchanged; otherwise a body-read error or a status code
outside [200,299] yields the error built by
`fmt.Errorf("failed to write batch: [%v] %s", resp.StatusCode, resp.Status)`. -/
def classifyResponse : HTTPResponse → Except String Unit
  | .transportErr e => .error e
  | .resp statusCode status readErr =>
    if readErr = true ∨ statusCode < 200 ∨ 299 < statusCode then
      .error ("failed to write batch: [" ++ toString statusCode ++ "] " ++ status)
    else
      .ok ()

/-- Mutable fields of the `YandexCloudMonitoring` struct that the claims touch
(`Endpoint`, `Service`, the metadata URLs, `folderID`, `iamToken`,
`iamTokenExpirationTime` in nanoseconds). -/
structure PluginState where
  endpoint : String
  service : String
  metadataTokenURL : String
  metadataFolderURL : String
  folderID : String
  iamToken : String
  iamTokenExpirationTime : ℤ
deriving DecidableEq, Repr

/-- Result of one `send` call: the returned error value, the plugin state after
the call, the list of metadata URLs fetched during the call, the Authorization
header value if the POST was reached, and the body handed to the POST if it
was executed. -/
structure SendResult where
  result : Except String Unit
  state : PluginState
  metadataCalls : List String
  authToken : Option String
  postBody : Option String
deriving Repr

/-- Embedding of `send` (lines 204-238). The token is refreshed when it is empty
or `iamTokenExpirationTime.Before(now)` holds (strict less-than, line 215); a
refresh failure is returned before the POST is executed; a successful refresh
stores the token and `now + expiresIn * time.Second` (with int64 wraparound of
the duration product); the POST outcome is classified by `classifyResponse`. -/
def send (st : PluginState) (now : ℤ) (tokenFetch : FetchOutcome) (post : HTTPResponse)
    (body : String) : SendResult :=
  let isTokenExpired := st.iamTokenExpirationTime < now
  if st.iamToken = "" ∨ isTokenExpired then
    match getIAMTokenFromMetadata st.metadataTokenURL tokenFetch with
    | .error e => ⟨.error e, st, [st.metadataTokenURL], none, none⟩
    | .ok (token, expiresIn) =>
      let st2 : PluginState :=
        { st with
          iamTokenExpirationTime := now + wrap64 (expiresIn * nsPerSecond)
          iamToken := token }
      ⟨classifyResponse post, st2, [st.metadataTokenURL], some ("Bearer " ++ st2.iamToken),
        some body⟩
  else
    ⟨classifyResponse post, st, [], some ("Bearer " ++ st.iamToken), some body⟩

/-- Result of `Connect`: the returned error value, the plugin state after the
call, and the metadata URLs fetched. -/
structure ConnectResult where
  result : Except String Unit
  state : PluginState
  metadataCalls : List String
deriving Repr

/-- Embedding of `Connect` (lines 108-122): fetch the folder-id metadata URL,
store the body as `folderID`, and fail when the fetch failed or the body was
empty. -/
def connect (st : PluginState) (folderFetch : Except String String) : ConnectResult :=
  match folderFetch with
  | .error e => ⟨.error e, st, [st.metadataFolderURL]⟩
  | .ok body =>
    let st2 : PluginState := { st with folderID := body }
    if st2.folderID = "" then
      ⟨.error ("unable to fetch folder id from URL " ++ st.metadataFolderURL), st2,
        [st.metadataFolderURL]⟩
    else
      ⟨.ok (), st2, [st.metadataFolderURL]⟩

/-- Modelled from the spec: `internal.ToFloat64` (the host agent's numeric-coercion
helper, not part of src/) turns an arbitrary field value into a float64 or fails.
Field values are abstracted as either numeric (carrying the coerced value, with ℚ
standing for float64 since no claim performs float arithmetic) or non-numeric. -/
inductive FieldValue where
  | num (v : ℚ)
  | nonNum
deriving DecidableEq, Repr

/-- Modelled from the spec: the coercion result of `internal.ToFloat64` on a field
value — the value for a numeric field, an error for a non-numeric one. -/
def toFloat64 : FieldValue → Except String ℚ
  | .num v => .ok v
  | .nonNum => .error "unsupported type"

/-- One entry of the host metric's `FieldList()` (a key and a value). -/
structure MetricField where
  key : String
  value : FieldValue
deriving DecidableEq, Repr

/-- Modelled from the spec: the host agent's generic metric abstraction
(`telegraf.Metric`, not part of src/) with `Name()`, ordered `FieldList()`,
`Tags()` as an association list in iteration order, and the RFC3339-formatted
`Time()` kept as a pre-formatted string since no claim inspects formatting. -/
structure Metric where
  name : String
  tags : List (String × String)
  fieldList : List MetricField
  timeRFC3339 : String
deriving DecidableEq, Repr

/-- Go map assignment `m[k] = v` on an association list in iteration order:
overwrite the value when the key is present, append the pair otherwise. -/
def mapInsert (m : List (String × String)) (k v : String) : List (String × String) :=
  if m.any (fun p => p.1 == k) then
    m.map (fun p => if p.1 = k then (k, v) else p)
  else
    m ++ [(k, v)]

/-- Embedding of `replaceReservedTagNames` (lines 246-256): build a fresh map,
writing each tag under its own key except that key `name` is written under
`_name`. -/
def replaceReservedTagNames (tagNames : List (String × String)) : List (String × String) :=
  tagNames.foldl
    (fun newTags p =>
      if p.1 = "name" then mapInsert newTags "_name" p.2 else mapInsert newTags p.1 p.2)
    []

/-- Wire metric point (source struct `yandexCloudMonitoringMetric`): JSON fields
`name`, `labels`, `type` (omitempty), `ts` (omitempty), `value`. -/
structure YCMetric where
  name : String
  labels : List (String × String)
  metricType : String
  ts : String
  value : ℚ
deriving DecidableEq, Repr

/-- Loop body of `Write` (lines 134-150) for one field of metric `m`: a field
whose value fails coercion is skipped and counted (the `Log.Errorf` diagnostic,
modelled as an explicit skip count); a coercible field appends one point named
`m.Name() + "_" + field.Key` with the sanitized labels and the metric's time. -/
def translateStep (m : Metric) (acc : List YCMetric × ℕ) (f : MetricField) :
    List YCMetric × ℕ :=
  match toFloat64 f.value with
  | .error _ => (acc.1, acc.2 + 1)
  | .ok v =>
    (acc.1 ++
      [{ name := m.name ++ "_" ++ f.key
         labels := replaceReservedTagNames m.tags
         metricType := ""
         ts := m.timeRFC3339
         value := v }],
     acc.2)

/-- Embedding of the translation loop of `Write` (lines 132-151): one pass over
every field of every metric, accumulating the wire points in order together with
the number of skipped (non-coercible) fields. -/
def translate (metrics : List Metric) : List YCMetric × ℕ :=
  metrics.foldl (fun acc m => m.fieldList.foldl (translateStep m) acc) ([], 0)

/-- Expected wire point for a coercible field, used to state the translation
characterization: `none` when the field's value fails coercion. -/
def pointOf (m : Metric) (f : MetricField) : Option YCMetric :=
  match toFloat64 f.value with
  | .error _ => none
  | .ok v =>
    some
      { name := m.name ++ "_" ++ f.key
        labels := replaceReservedTagNames m.tags
        metricType := ""
        ts := m.timeRFC3339
        value := v }

/-- Whether a field's value coerces to float64. -/
def coerces (f : MetricField) : Bool :=
  match toFloat64 f.value with
  | .ok _ => true
  | .error _ => false

/-- JSON escaping of one character; control-character escaping is elided since no
claim feeds control characters through serialization. -/
def jsonEscapeChar (c : Char) : String :=
  if c = '\"' then "\\\"" else if c = '\\' then "\\\\" else String.singleton c

/-- JSON string literal for `s`. -/
def jsonString (s : String) : String :=
  "\"" ++ String.join (s.toList.map jsonEscapeChar) ++ "\""

/-- Insertion step for sorting labels by key, since `encoding/json` serializes Go
maps with sorted keys. -/
def insertSorted (p : String × String) : List (String × String) → List (String × String)
  | [] => [p]
  | q :: rest => if p.1 < q.1 then p :: q :: rest else q :: insertSorted p rest

/-- Sort an association list by key, as `encoding/json` does for Go maps. -/
def sortByKey (l : List (String × String)) : List (String × String) :=
  l.foldr insertSorted []

/-- JSON object for a label map. -/
def renderLabels (l : List (String × String)) : String :=
  "\x7b" ++
    String.intercalate "," ((sortByKey l).map (fun p => jsonString p.1 ++ ":" ++ jsonString p.2)) ++
    "\x7d"

/-- Decimal rendering of a value; this stands in for Go `strconv`'s float64
formatting, whose exact digit selection is a floating-point concern no claim
depends on. -/
def renderValue (v : ℚ) : String :=
  toString v.num ++ (if v.den = 1 then "" else "/" ++ toString v.den)

/-- JSON object for one `yandexCloudMonitoringMetric`, with the `omitempty`
fields `type` and `ts` omitted when empty, in Go struct-field order. -/
def renderYCMetric (m : YCMetric) : String :=
  "\x7b\"name\":" ++ jsonString m.name ++ ",\"labels\":" ++ renderLabels m.labels ++
    (if m.metricType = "" then "" else ",\"type\":" ++ jsonString m.metricType) ++
    (if m.ts = "" then "" else ",\"ts\":" ++ jsonString m.ts) ++
    ",\"value\":" ++ renderValue m.value ++ "\x7d"

/-- Embedding of `json.Marshal` on `yandexCloudMonitoringMessage` as constructed
by `Write` (lines 153-157): `ts` and `labels` carry `omitempty` and `Write`
leaves them zero, so only `metrics` is emitted; a nil slice (zero translated
points) marshals as JSON `null`, a non-empty slice as an array. -/
def marshalMessage (metrics : List YCMetric) : String :=
  "\x7b\"metrics\":" ++
    (match metrics with
     | [] => "null"
     | _ => "[" ++ String.intercalate "," (metrics.map renderYCMetric) ++ "]") ++
    "\x7d"

/-- Body built by `Write` (lines 153-161): the marshalled message with a trailing
newline byte. -/
def writeBody (metrics : List Metric) : String :=
  marshalMessage (translate metrics).1 ++ "\n"

/-- Inputs of one `Write` invocation: the query instant and the network oracles
for the token refresh and the POST, plus the metric batch. -/
structure WriteInput where
  now : ℤ
  tokenFetch : FetchOutcome
  post : HTTPResponse
  metrics : List Metric

/-- Embedding of `Write` (lines 131-163): translate the batch, marshal it, append
the newline, and hand the body to `send`. -/
def write (st : PluginState) (inp : WriteInput) : SendResult :=
  send st inp.now inp.tokenFetch inp.post (writeBody inp.metrics)

/-- A sequence of `Write` invocations threading the plugin state, accumulating
every metadata URL fetched along the way. -/
def runWrites (st : PluginState) : List WriteInput → PluginState × List String
  | [] => (st, [])
  | inp :: rest =>
    let r := write st inp
    let tail := runWrites r.state rest
    (tail.1, r.metadataCalls ++ tail.2)

/-- Concrete plugin state used by witnesses: defaults applied by `Init`, a fetched
folder id, and no cached token. -/
def testState : PluginState :=
  { endpoint := defaultEndpoint
    service := "custom"
    metadataTokenURL := defaultMetadataTokenURL
    metadataFolderURL := defaultMetadataFolderURL
    folderID := "b1gldgej4sakd8kea3cn"
    iamToken := ""
    iamTokenExpirationTime := 0 }

/-- Concrete successful POST outcome used by witnesses. -/
def testResp : HTTPResponse := .resp 200 "200 OK" false

/-- Concrete plugin state holding a cached token valid until instant 10. -/
def testState2 : PluginState :=
  { testState with iamToken := "cached-token", iamTokenExpirationTime := 10 }

/-- Concrete host metric whose single field is non-numeric. -/
def testMetricNonNumeric : Metric :=
  { name := "cpu"
    tags := [("host", "vm1")]
    fieldList := [{ key := "note", value := .nonNum }]
    timeRFC3339 := "2023-06-06T11:10:50Z" }

/-- C2. For every token metadata response with an empty `access_token` or a zero
`expires_in`, a send that attempts the refresh returns an error, leaves the
cached token and expiration instant unchanged, and does not reach the POST, so
any later send (at a no-earlier instant) re-attempts the metadata fetch. -/
theorem C2_refresh_failure_atomic (st : PluginState) (now now2 : ℤ) (t : MetadataIamToken)
    (p p2 : HTTPResponse) (b b2 : String) (f2 : FetchOutcome)
    (href : st.iamToken = "" ∨ st.iamTokenExpirationTime < now)
    (hbad : t.accessToken = "" ∨ t.expiresIn = 0)
    (hle : now ≤ now2) :
    (send st now (.ok t) p b).result =
      .error ("unable to fetch authentication credentials " ++ st.metadataTokenURL) ∧
    (send st now (.ok t) p b).state = st ∧
    (send st now (.ok t) p b).postBody = none ∧
    (send st now2 f2 p2 b2).metadataCalls = [st.metadataTokenURL] := by
  have hg : getIAMTokenFromMetadata st.metadataTokenURL (.ok t) =
      .error ("unable to fetch authentication credentials " ++ st.metadataTokenURL) := by
    simp [getIAMTokenFromMetadata, hbad]
  have hcond2 : st.iamToken = "" ∨ st.iamTokenExpirationTime < now2 := by
    rcases href with h | h
    · exact Or.inl h
    · exact Or.inr (lt_of_lt_of_le h hle)
  refine ⟨?_, ?_, ?_, ?_⟩
  · simp [send, href, hg]
  · simp [send, href, hg]
  · simp [send, href, hg]
  · simp only [send]
    rw [if_pos hcond2]
    rcases hg2 : getIAMTokenFromMetadata st.metadataTokenURL f2 with e | pr
    · rfl
    · rfl

/-- Witness for C2 at a concrete malformed response (empty token). -/
theorem C2_refresh_failure_atomic_witness :
    (send testState 0 (.ok ⟨"", 3600, "Bearer"⟩) testResp "x").result =
      .error ("unable to fetch authentication credentials " ++ testState.metadataTokenURL) ∧
    (send testState 0 (.ok ⟨"", 3600, "Bearer"⟩) testResp "x").state = testState ∧
    (send testState 0 (.ok ⟨"", 3600, "Bearer"⟩) testResp "x").postBody = none ∧
    (send testState 5 (.fetchErr "down") testResp "y").metadataCalls =
      [testState.metadataTokenURL] :=
  C2_refresh_failure_atomic testState 0 5 ⟨"", 3600, "Bearer"⟩ testResp testResp "x" "y"
    (.fetchErr "down") (Or.inl rfl) (Or.inl rfl) (by decide)

/-- C5. Delivery classification: a completed POST with a 2xx status succeeds; a
status outside [200,299] fails with an error message carrying the status code
and status text; a transport-level error fails; and whenever the POST is
executed, the publish result is exactly the classification of its outcome. -/
theorem C5_delivery_classification (okCode badCode : ℕ) (okStatus badStatus e : String)
    (readErr : Bool) (st : PluginState) (now : ℤ) (f : FetchOutcome) (p : HTTPResponse)
    (b : String)
    (hok1 : 200 ≤ okCode) (hok2 : okCode ≤ 299)
    (hbad : badCode < 200 ∨ 299 < badCode)
    (hsent : (send st now f p b).postBody ≠ none) :
    classifyResponse (.resp okCode okStatus false) = .ok () ∧
    classifyResponse (.resp badCode badStatus readErr) =
      .error ("failed to write batch: [" ++ toString badCode ++ "] " ++ badStatus) ∧
    classifyResponse (.transportErr e) = .error e ∧
    (send st now f p b).result = classifyResponse p := by
  refine ⟨?_, ?_, rfl, ?_⟩
  · simp only [classifyResponse]
    rw [if_neg]
    push_neg
    refine ⟨by simp, by omega, by omega⟩
  · simp only [classifyResponse]
    rw [if_pos (Or.inr (by omega))]
  · by_cases hc : st.iamToken = "" ∨ st.iamTokenExpirationTime < now
    · rcases hg : getIAMTokenFromMetadata st.metadataTokenURL f with e2 | pr
      · exfalso
        apply hsent
        simp [send, hc, hg]
      · obtain ⟨tok, ei⟩ := pr
        simp [send, hc, hg]
    · simp [send, hc]

/-- Witness for C5 at concrete 200 / 404 outcomes, a concrete transport error,
and a send from a state with a valid cached token. -/
theorem C5_delivery_classification_witness :
    classifyResponse (.resp 200 "200 OK" false) = .ok () ∧
    classifyResponse (.resp 404 "404 Not Found" false) =
      .error ("failed to write batch: [" ++ toString 404 ++ "] " ++ "404 Not Found") ∧
    classifyResponse (.transportErr "connection refused") = .error "connection refused" ∧
    (send testState2 0 (.fetchErr "down") testResp "x").result = classifyResponse testResp :=
  C5_delivery_classification 200 404 "200 OK" "404 Not Found" "connection refused" false
    testState2 0 (.fetchErr "down") testResp "x" (by decide) (by decide) (by decide)
    (by decide)

/-- C6. When the token refresh is attempted and obtaining a valid bearer token
fails, the publish returns that error and the POST to the monitoring endpoint is
never executed. -/
theorem C6_abort_before_post (st : PluginState) (now : ℤ) (f : FetchOutcome)
    (p : HTTPResponse) (b e : String)
    (href : st.iamToken = "" ∨ st.iamTokenExpirationTime < now)
    (hfail : getIAMTokenFromMetadata st.metadataTokenURL f = .error e) :
    (send st now f p b).result = .error e ∧ (send st now f p b).postBody = none := by
  constructor
  · simp [send, href, hfail]
  · simp [send, href, hfail]

/-- Witness for C6 at a concrete unreachable-metadata outcome. -/
theorem C6_abort_before_post_witness :
    (send testState 0 (.fetchErr "metadata unreachable") testResp "x").result =
      .error "metadata unreachable" ∧
    (send testState 0 (.fetchErr "metadata unreachable") testResp "x").postBody = none :=
  C6_abort_before_post testState 0 (.fetchErr "metadata unreachable") testResp "x"
    "metadata unreachable" (Or.inl rfl) rfl

theorem wrap64_eq_self (x : ℤ) (h1 : -(2 ^ 63) ≤ x) (h2 : x < 2 ^ 63) : wrap64 x = x := by
  unfold wrap64
  have hlo : 0 ≤ x + 2 ^ 63 := by linarith
  have hhi : x + 2 ^ 63 < 2 ^ 64 := by
    have : (2 : ℤ) ^ 64 = 2 ^ 63 + 2 ^ 63 := by norm_num
    linarith
  rw [Int.emod_eq_of_lt hlo hhi]
  ring

/-- C1 (corrected). After a refresh at instant T that stored token `t1` with
`expires_in` 3600 seconds, every send with query instant in the closed interval
[T, T+3600s] uses `t1` without a metadata call, and a send with query instant
strictly after T+3600s issues exactly one refresh call. (The original claim put
the refresh boundary at T+3600 itself; the code's `Before` check is strict.) -/
theorem C1_amended_token_window (st0 : PluginState) (T now1 now2 : ℤ)
    (tt b b1 b2 : String) (p p1 p2 : HTTPResponse) (f1 f2 : FetchOutcome)
    (h0 : st0.iamToken = "")
    (h1a : T ≤ now1) (h1b : now1 ≤ T + 3600 * nsPerSecond)
    (h2 : T + 3600 * nsPerSecond < now2) :
    (send st0 T (.ok ⟨"t1", 3600, tt⟩) p b).state.iamToken = "t1" ∧
    (send st0 T (.ok ⟨"t1", 3600, tt⟩) p b).state.iamTokenExpirationTime =
      T + 3600 * nsPerSecond ∧
    (send (send st0 T (.ok ⟨"t1", 3600, tt⟩) p b).state now1 f1 p1 b1).metadataCalls = [] ∧
    (send (send st0 T (.ok ⟨"t1", 3600, tt⟩) p b).state now1 f1 p1 b1).authToken =
      some ("Bearer " ++ "t1") ∧
    (send (send st0 T (.ok ⟨"t1", 3600, tt⟩) p b).state now2 f2 p2 b2).metadataCalls.length =
      1 := by
  have hg : getIAMTokenFromMetadata st0.metadataTokenURL (.ok ⟨"t1", 3600, tt⟩) =
      .ok ("t1", 3600) := by
    simp [getIAMTokenFromMetadata]
  have hwrap : wrap64 (3600 * nsPerSecond) = 3600 * nsPerSecond := by
    apply wrap64_eq_self <;> norm_num [nsPerSecond]
  have hstate : (send st0 T (.ok ⟨"t1", 3600, tt⟩) p b).state =
      { st0 with iamTokenExpirationTime := T + 3600 * nsPerSecond, iamToken := "t1" } := by
    simp [send, Or.inl h0, hg, hwrap]
  refine ⟨by rw [hstate], by rw [hstate], ?_, ?_, ?_⟩
  · rw [hstate]
    simp only [send]
    rw [if_neg]
    push_neg
    exact ⟨by simp, h1b⟩
  · rw [hstate]
    simp only [send]
    rw [if_neg]
    push_neg
    exact ⟨by simp, h1b⟩
  · rw [hstate]
    simp only [send]
    rw [if_pos (Or.inr h2)]
    rcases hg2 : getIAMTokenFromMetadata st0.metadataTokenURL f2 with e | pr
    · rfl
    · rfl

/-- Witness for the amended C1 at T = 0, an in-window instant 3600s, and a
just-after-window instant 3600s + 1ns. -/
theorem C1_amended_token_window_witness :
    (send testState 0 (.ok ⟨"t1", 3600, "Bearer"⟩) testResp "x").state.iamToken = "t1" ∧
    (send testState 0 (.ok ⟨"t1", 3600, "Bearer"⟩) testResp "x").state.iamTokenExpirationTime =
      0 + 3600 * nsPerSecond ∧
    (send (send testState 0 (.ok ⟨"t1", 3600, "Bearer"⟩) testResp "x").state
      (3600 * nsPerSecond) (.fetchErr "down") testResp "y").metadataCalls = [] ∧
    (send (send testState 0 (.ok ⟨"t1", 3600, "Bearer"⟩) testResp "x").state
      (3600 * nsPerSecond) (.fetchErr "down") testResp "y").authToken =
      some ("Bearer " ++ "t1") ∧
    (send (send testState 0 (.ok ⟨"t1", 3600, "Bearer"⟩) testResp "x").state
      (3600 * nsPerSecond + 1) (.fetchErr "down") testResp
      "y").metadataCalls.length = 1 :=
  C1_amended_token_window testState 0 (3600 * nsPerSecond) (3600 * nsPerSecond + 1)
    "Bearer" "x" "y" "y" testResp testResp testResp (.fetchErr "down") (.fetchErr "down")
    rfl (by norm_num [nsPerSecond]) (by norm_num) (by norm_num)

/-- C1 (counterexample). At a query instant exactly equal to T+3600s (T = 0),
the code issues zero metadata calls and reuses `t1`, refuting the original
claim that any query time at or past T+3600 triggers exactly one refresh. -/
theorem C1_counterexample :
    (send testState 0 (.ok ⟨"t1", 3600, "Bearer"⟩) testResp "x").state.iamTokenExpirationTime =
      3600 * nsPerSecond ∧
    (send (send testState 0 (.ok ⟨"t1", 3600, "Bearer"⟩) testResp "x").state
      (3600 * nsPerSecond) (.fetchErr "down") testResp "y").metadataCalls.length = 0 ∧
    ¬ (send (send testState 0 (.ok ⟨"t1", 3600, "Bearer"⟩) testResp "x").state
        (3600 * nsPerSecond) (.fetchErr "down") testResp "y").metadataCalls.length = 1 ∧
    (send (send testState 0 (.ok ⟨"t1", 3600, "Bearer"⟩) testResp "x").state
      (3600 * nsPerSecond) (.fetchErr "down") testResp "y").authToken =
      some "Bearer t1" := by
  refine ⟨by decide, by decide, by decide, by decide⟩

/-- C7 (counterexample). The refresh accepts a metadata response with
`expires_in` = -1 (only emptiness and exact zero are rejected), and the stored
expiration instant then lies strictly in the past, refuting the invariant as
originally stated. -/
theorem C7_counterexample :
    getIAMTokenFromMetadata defaultMetadataTokenURL (.ok ⟨"t1", -1, "Bearer"⟩) =
      .ok ("t1", -1) ∧
    (send testState 100 (.ok ⟨"t1", -1, "Bearer"⟩) testResp "x").state.iamToken = "t1" ∧
    (send testState 100 (.ok ⟨"t1", -1, "Bearer"⟩) testResp "x").state.iamTokenExpirationTime <
      100 := by
  refine ⟨rfl, by decide, by decide⟩

/-- C7 (amended). Every token metadata response accepted by the refresh has a
non-empty token, and when its `expires_in` is positive and small enough that
the nanosecond conversion does not overflow int64, the stored expiration
instant is strictly in the future at the moment it is set. -/
theorem C7_amended_credential_invariant (st : PluginState) (now : ℤ) (f : FetchOutcome)
    (p : HTTPResponse) (b : String) (tok : String) (ei : ℤ)
    (hok : getIAMTokenFromMetadata st.metadataTokenURL f = .ok (tok, ei))
    (href : st.iamToken = "" ∨ st.iamTokenExpirationTime < now)
    (hpos : 0 < ei) (hbound : ei * nsPerSecond < 2 ^ 63) :
    tok ≠ "" ∧
    (send st now f p b).state.iamToken = tok ∧
    now < (send st now f p b).state.iamTokenExpirationTime := by
  have htok : tok ≠ "" := by
    cases f with
    | fetchErr e => simp [getIAMTokenFromMetadata] at hok
    | parseErr e => simp [getIAMTokenFromMetadata] at hok
    | ok m =>
      by_cases hc : m.accessToken = "" ∨ m.expiresIn = 0
      · simp [getIAMTokenFromMetadata, hc] at hok
      · simp [getIAMTokenFromMetadata, hc] at hok
        push_neg at hc
        rw [← hok.1]
        exact hc.1
  have hwrap : wrap64 (ei * nsPerSecond) = ei * nsPerSecond := by
    apply wrap64_eq_self
    · have : (0 : ℤ) < ei * nsPerSecond := by
        apply mul_pos hpos
        norm_num [nsPerSecond]
      linarith [neg_nonpos_of_nonneg (le_of_lt (show (0:ℤ) < 2 ^ 63 by norm_num))]
    · exact hbound
  have hposns : (0 : ℤ) < ei * nsPerSecond := by
    apply mul_pos hpos
    norm_num [nsPerSecond]
  refine ⟨htok, ?_, ?_⟩
  · simp [send, href, hok]
  · simp only [send]
    rw [if_pos href, hok]
    simp only [hwrap]
    linarith

/-- Witness for the amended C7 at a concrete accepted response (3600 seconds). -/
theorem C7_amended_credential_invariant_witness :
    "t1" ≠ "" ∧
    (send testState 0 (.ok ⟨"t1", 3600, "Bearer"⟩) testResp "x").state.iamToken = "t1" ∧
    (0 : ℤ) <
      (send testState 0 (.ok ⟨"t1", 3600, "Bearer"⟩) testResp "x").state.iamTokenExpirationTime :=
  C7_amended_credential_invariant testState 0 (.ok ⟨"t1", 3600, "Bearer"⟩) testResp "x"
    "t1" 3600 rfl (Or.inl rfl) (by decide) (by norm_num [nsPerSecond])

theorem fieldList_foldl_translateStep (m : Metric) (fs : List MetricField)
    (acc : List YCMetric × ℕ) :
    fs.foldl (translateStep m) acc =
      (acc.1 ++ fs.filterMap (pointOf m),
       acc.2 + (fs.filter (fun f => !coerces f)).length) := by
  induction fs generalizing acc with
  | nil => simp
  | cons f rest ih =>
    rw [List.foldl_cons, ih]
    cases hf : toFloat64 f.value with
    | error e =>
      simp [translateStep, pointOf, coerces, hf, List.filterMap_cons, List.filter_cons]
      omega
    | ok v =>
      simp [translateStep, pointOf, coerces, hf, List.filterMap_cons, List.filter_cons]

theorem translate_foldl (metrics : List Metric) (acc : List YCMetric × ℕ) :
    metrics.foldl (fun a m => m.fieldList.foldl (translateStep m) a) acc =
      (acc.1 ++ (metrics.map (fun m => m.fieldList.filterMap (pointOf m))).flatten,
       acc.2 +
         (metrics.map (fun m => (m.fieldList.filter (fun f => !coerces f)).length)).sum) := by
  induction metrics generalizing acc with
  | nil => simp
  | cons m rest ih =>
    rw [List.foldl_cons, fieldList_foldl_translateStep, ih]
    simp [List.append_assoc]
    omega

theorem length_filterMap_pointOf (m : Metric) (fs : List MetricField) :
    (fs.filterMap (pointOf m)).length = (fs.filter (fun f => coerces f)).length := by
  induction fs with
  | nil => rfl
  | cons f rest ih =>
    cases hf : toFloat64 f.value with
    | error e => simp [pointOf, coerces, hf, List.filterMap_cons, List.filter_cons, ih]
    | ok v => simp [pointOf, coerces, hf, List.filterMap_cons, List.filter_cons, ih]

/-- C4. Translation of a batch yields, per metric and in the host agent's field
order, exactly one wire point for each field whose value coerces to float64 —
named by the metric name, an underscore, and the field key, as `pointOf`
prescribes — and counts one skip for each non-coercible field, aborting
nothing: the point list is the concatenation of the per-metric coercible
fields and the skip count is the total number of non-coercible fields. -/
theorem C4_translation_cardinality (metrics : List Metric) :
    (translate metrics).1 =
      (metrics.map (fun m => m.fieldList.filterMap (pointOf m))).flatten ∧
    (translate metrics).1.length =
      (metrics.map (fun m => (m.fieldList.filter (fun f => coerces f)).length)).sum ∧
    (translate metrics).2 =
      (metrics.map (fun m => (m.fieldList.filter (fun f => !coerces f)).length)).sum := by
  have h := translate_foldl metrics ([], 0)
  refine ⟨?_, ?_, ?_⟩
  · rw [translate, h]
    simp
  · rw [translate, h]
    have hsum : ∀ ms : List Metric,
        (ms.map (fun m => (m.fieldList.filterMap (pointOf m)).length)).sum =
          (ms.map (fun m => (m.fieldList.filter (fun f => coerces f)).length)).sum := by
      intro ms
      induction ms with
      | nil => rfl
      | cons m rest ih => simp [length_filterMap_pointOf, ih]
    simp [List.length_flatten, Function.comp]
    exact hsum metrics
  · rw [translate, h]
    simp

/-- Key rename applied by the sanitizer: `name` becomes `_name`, all other keys
are unchanged. -/
def renameKey (k : String) : String := if k = "name" then "_name" else k

/-- Pair form of the rename: the key is renamed, the value preserved. -/
def renamePair (p : String × String) : String × String :=
  if p.1 = "name" then ("_name", p.2) else p

/-- Key list of an association-list map. -/
def keysOf (m : List (String × String)) : List String := m.map Prod.fst

theorem renamePair_eq (p : String × String) : renamePair p = (renameKey p.1, p.2) := by
  by_cases h : p.1 = "name" <;> simp [renamePair, renameKey, h]

theorem replace_step (newTags : List (String × String)) (p : String × String) :
    (if p.1 = "name" then mapInsert newTags "_name" p.2 else mapInsert newTags p.1 p.2) =
      mapInsert newTags (renameKey p.1) p.2 := by
  by_cases h : p.1 = "name" <;> simp [renameKey, h]

theorem replace_eq_fold (l : List (String × String)) :
    replaceReservedTagNames l =
      l.foldl (fun newTags p => mapInsert newTags (renameKey p.1) p.2) [] := by
  unfold replaceReservedTagNames
  congr 1
  funext newTags p
  exact replace_step newTags p

theorem mapInsert_fresh (m : List (String × String)) (k v : String) (h : k ∉ keysOf m) :
    mapInsert m k v = m ++ [(k, v)] := by
  unfold mapInsert
  rw [if_neg]
  simp only [List.any_eq_true, beq_iff_eq, not_exists, not_and]
  intro p hp hpk
  exact h (hpk ▸ List.mem_map_of_mem Prod.fst hp)

theorem keysOf_overwrite (m : List (String × String)) (k v : String) :
    keysOf (m.map (fun p => if p.1 = k then (k, v) else p)) = keysOf m := by
  induction m with
  | nil => rfl
  | cons p rest ih =>
    by_cases h : p.1 = k
    · simp [keysOf, h] at ih ⊢
      exact ih
    · simp [keysOf, h] at ih ⊢
      exact ih

theorem mem_keysOf_mapInsert {x : String} (m : List (String × String)) (k v : String)
    (h : x ∈ keysOf (mapInsert m k v)) : x ∈ keysOf m ∨ x = k := by
  unfold mapInsert at h
  by_cases hc : m.any (fun p => p.1 == k) = true
  · rw [if_pos hc, keysOf_overwrite] at h
    exact Or.inl h
  · rw [if_neg hc] at h
    simp only [keysOf, List.map_append, List.mem_append, List.map_cons, List.map_nil,
      List.mem_singleton] at h
    rcases h with h | h
    · exact Or.inl h
    · exact Or.inr h

theorem nodup_keysOf_mapInsert (m : List (String × String)) (k v : String)
    (h : (keysOf m).Nodup) : (keysOf (mapInsert m k v)).Nodup := by
  unfold mapInsert
  by_cases hc : m.any (fun p => p.1 == k) = true
  · rw [if_pos hc, keysOf_overwrite]
    exact h
  · rw [if_neg hc]
    have hk : k ∉ keysOf m := by
      intro hmem
      simp only [keysOf, List.mem_map] at hmem
      obtain ⟨p, hp, hpk⟩ := hmem
      simp only [List.any_eq_true, beq_iff_eq, not_exists, not_and] at hc
      exact hc p hp hpk
    simp only [keysOf, List.map_append, List.map_cons, List.map_nil]
    rw [List.nodup_append]
    exact ⟨h, List.nodup_singleton k, fun a ha hb => hk (by simpa using (List.mem_singleton.mp hb) ▸ ha)⟩

theorem replace_fold_fresh (l : List (String × String)) :
    ∀ acc : List (String × String),
      (∀ p ∈ l, renameKey p.1 ∉ keysOf acc) →
      (l.map (fun p => renameKey p.1)).Nodup →
      l.foldl (fun newTags p => mapInsert newTags (renameKey p.1) p.2) acc =
        acc ++ l.map renamePair := by
  induction l with
  | nil =>
    intro acc _ _
    simp
  | cons p rest ih =>
    intro acc hfresh hnodup
    rw [List.foldl_cons, mapInsert_fresh _ _ _ (hfresh p (List.mem_cons_self p rest))]
    have hnd : renameKey p.1 ∉ rest.map (fun q => renameKey q.1) ∧
        (rest.map (fun q => renameKey q.1)).Nodup := by
      rw [List.map_cons] at hnodup
      exact List.nodup_cons.mp hnodup
    rw [ih (acc ++ [(renameKey p.1, p.2)]) ?_ hnd.2]
    · rw [List.append_assoc, List.map_cons, renamePair_eq]
      rfl
    · intro q hq
      have h1 : renameKey q.1 ∉ keysOf acc := hfresh q (List.mem_cons_of_mem p hq)
      have h2 : renameKey q.1 ≠ renameKey p.1 := by
        intro he
        exact hnd.1 (he ▸ List.mem_map_of_mem (fun q => renameKey q.1) hq)
      simp only [keysOf, List.map_append, List.mem_append, List.map_cons, List.map_nil,
        List.mem_singleton]
      rintro (h | h)
      · exact h1 h
      · exact h2 h

theorem replace_fold_inv (l : List (String × String)) :
    ∀ acc : List (String × String),
      (keysOf acc).Nodup → "name" ∉ keysOf acc →
      (keysOf (l.foldl (fun newTags p => mapInsert newTags (renameKey p.1) p.2) acc)).Nodup ∧
      "name" ∉ keysOf (l.foldl (fun newTags p => mapInsert newTags (renameKey p.1) p.2) acc) := by
  induction l with
  | nil =>
    intro acc h1 h2
    exact ⟨h1, h2⟩
  | cons p rest ih =>
    intro acc h1 h2
    rw [List.foldl_cons]
    apply ih
    · exact nodup_keysOf_mapInsert _ _ _ h1
    · intro hmem
      rcases mem_keysOf_mapInsert _ _ _ hmem with h | h
      · exact h2 h
      · rw [renameKey] at h
        by_cases hp : p.1 = "name"
        · rw [if_pos hp] at h
          exact absurd h (by decide)
        · rw [if_neg hp] at h
          exact hp h.symm

/-- C3 (counterexample). On the tag mapping with both a `name` and an `_name`
key (iterated in that order), the sanitizer collapses both onto the single
output key `_name`: the renamed `name` tag's value `a` is lost, refuting the
original claim that every tag is copied with its value preserved. -/
theorem C3_counterexample :
    replaceReservedTagNames [("name", "a"), ("_name", "b")] = [("_name", "b")] ∧
    ("_name", "a") ∉ replaceReservedTagNames [("name", "a"), ("_name", "b")] := by
  refine ⟨by decide, by decide⟩

/-- C3 (amended). For every tag mapping whose keys remain pairwise distinct
after the rename (equivalently, one that does not contain both a `name` and an
`_name` key), the sanitizer copies each tag with key and value unchanged except
that the tag keyed `name` appears under `_name` with its value preserved; when
both `name` and `_name` occur they collide on the output key `_name` and only
one value survives. -/
theorem C3_amended_label_sanitization (l : List (String × String))
    (h : (l.map (fun p => renameKey p.1)).Nodup) :
    replaceReservedTagNames l = l.map renamePair := by
  rw [replace_eq_fold]
  have := replace_fold_fresh l [] (by simp [keysOf]) h
  simpa using this

/-- Witness for the amended C3 at a concrete mapping with a `host` tag and a
`name` tag. -/
theorem C3_amended_label_sanitization_witness :
    replaceReservedTagNames [("host", "vm1"), ("name", "core0")] =
      [("host", "vm1"), ("name", "core0")].map renamePair :=
  C3_amended_label_sanitization [("host", "vm1"), ("name", "core0")] (by decide)

/-- C9. Applying the reserved-tag-name replacement twice yields the same result
as applying it once, for every tag mapping: the output of one pass contains no
`name` key and has pairwise-distinct keys, so a second pass copies it
verbatim. -/
theorem C9_replace_idempotent (l : List (String × String)) :
    replaceReservedTagNames (replaceReservedTagNames l) = replaceReservedTagNames l := by
  have hinv : (keysOf (replaceReservedTagNames l)).Nodup ∧
      "name" ∉ keysOf (replaceReservedTagNames l) := by
    rw [replace_eq_fold]
    exact replace_fold_inv l [] (by simp [keysOf]) (by simp [keysOf])
  have hren : ∀ p ∈ replaceReservedTagNames l, renameKey p.1 = p.1 := by
    intro p hp
    rw [renameKey, if_neg]
    intro hpn
    exact hinv.2 (hpn ▸ List.mem_map_of_mem Prod.fst hp)
  have hkeys : (replaceReservedTagNames l).map (fun p => renameKey p.1) =
      keysOf (replaceReservedTagNames l) :=
    List.map_congr_left hren
  have hmap : (replaceReservedTagNames l).map renamePair = replaceReservedTagNames l := by
    have : ∀ p ∈ replaceReservedTagNames l, renamePair p = p := by
      intro p hp
      rw [renamePair_eq, hren p hp]
    rw [List.map_congr_left this]
    simp
  rw [replace_eq_fold (replaceReservedTagNames l),
    replace_fold_fresh (replaceReservedTagNames l) [] (by simp [keysOf])
      (hkeys ▸ hinv.1)]
  simpa using hmap

theorem send_frame (st : PluginState) (now : ℤ) (f : FetchOutcome) (p : HTTPResponse)
    (b : String) :
    (send st now f p b).state.folderID = st.folderID ∧
    (send st now f p b).state.metadataTokenURL = st.metadataTokenURL ∧
    (send st now f p b).state.metadataFolderURL = st.metadataFolderURL ∧
    ∀ u ∈ (send st now f p b).metadataCalls, u = st.metadataTokenURL := by
  by_cases hc : st.iamToken = "" ∨ st.iamTokenExpirationTime < now
  · rcases hg : getIAMTokenFromMetadata st.metadataTokenURL f with e | pr
    · simp [send, hc, hg]
    · obtain ⟨tok, ei⟩ := pr
      simp [send, hc, hg]
  · simp [send, hc]

theorem connect_frame (st : PluginState) (folderFetch : Except String String) :
    (connect st folderFetch).state.metadataTokenURL = st.metadataTokenURL ∧
    (connect st folderFetch).state.metadataFolderURL = st.metadataFolderURL := by
  cases folderFetch with
  | error e => exact ⟨rfl, rfl⟩
  | ok body =>
    by_cases h : body = ""
    · simp [connect, h]
    · simp [connect, h]

theorem runWrites_frame (inputs : List WriteInput) :
    ∀ st : PluginState,
      (runWrites st inputs).1.folderID = st.folderID ∧
      (runWrites st inputs).1.metadataTokenURL = st.metadataTokenURL ∧
      (runWrites st inputs).1.metadataFolderURL = st.metadataFolderURL ∧
      ∀ u ∈ (runWrites st inputs).2, u = st.metadataTokenURL := by
  induction inputs with
  | nil =>
    intro st
    simp [runWrites]
  | cons inp rest ih =>
    intro st
    have hs := send_frame st inp.now inp.tokenFetch inp.post (writeBody inp.metrics)
    have hr := ih (write st inp).state
    simp only [runWrites]
    refine ⟨?_, ?_, ?_, ?_⟩
    · rw [hr.1]
      exact hs.1
    · rw [hr.2.1]
      exact hs.2.1
    · rw [hr.2.2.1]
      exact hs.2.2.1
    · intro u hu
      rcases List.mem_append.mp hu with h | h
      · exact hs.2.2.2 u h
      · rw [hr.2.2.2 u h]
        exact hs.2.1

/-- C8. After a successful connect, no sequence of publish invocations fetches
the folder-id metadata URL again or changes the folder identifier: every
metadata call a publish makes goes to the token URL, and the folder identifier
after the sequence equals the one the connect stored. -/
theorem C8_folder_frame (st0 : PluginState) (folderFetch : Except String String)
    (inputs : List WriteInput)
    (hconn : (connect st0 folderFetch).result = .ok ())
    (hurl : st0.metadataTokenURL ≠ st0.metadataFolderURL) :
    (runWrites (connect st0 folderFetch).state inputs).1.folderID =
      (connect st0 folderFetch).state.folderID ∧
    (connect st0 folderFetch).state.metadataFolderURL ∉
      (runWrites (connect st0 folderFetch).state inputs).2 := by
  have hf := runWrites_frame inputs (connect st0 folderFetch).state
  have hcf := connect_frame st0 folderFetch
  refine ⟨hf.1, ?_⟩
  intro hmem
  have hu := hf.2.2.2 _ hmem
  rw [hcf.1, hcf.2] at hu
  exact hurl hu.symm

/-- Witness for C8: a successful connect with the default URLs followed by one
publish whose token refresh fails. -/
theorem C8_folder_frame_witness :
    (runWrites (connect testState (.ok "folder123")).state
        [⟨0, .fetchErr "down", testResp, [testMetricNonNumeric]⟩]).1.folderID =
      (connect testState (.ok "folder123")).state.folderID ∧
    (connect testState (.ok "folder123")).state.metadataFolderURL ∉
      (runWrites (connect testState (.ok "folder123")).state
        [⟨0, .fetchErr "down", testResp, [testMetricNonNumeric]⟩]).2 :=
  C8_folder_frame testState (.ok "folder123")
    [⟨0, .fetchErr "down", testResp, [testMetricNonNumeric]⟩] rfl (by decide)

/-- C10. Whenever translation yields zero wire points (an empty batch or one in
which every field fails coercion), `Write` still builds exactly the bytes
`\x7b"metrics":null\x7d` followed by a newline, and a send with a valid cached
token POSTs precisely that body rather than skipping the send. -/
theorem C10_empty_batch_null (st : PluginState) (now : ℤ) (f : FetchOutcome)
    (p : HTTPResponse) (ms : List Metric)
    (hempty : (translate ms).1 = [])
    (htok : st.iamToken ≠ "") (hexp : now ≤ st.iamTokenExpirationTime) :
    writeBody ms = "\x7b\"metrics\":null\x7d\n" ∧
    (write st ⟨now, f, p, ms⟩).postBody = some "\x7b\"metrics\":null\x7d\n" := by
  have hbody : writeBody ms = "\x7b\"metrics\":null\x7d\n" := by
    rw [writeBody, hempty]
    rfl
  refine ⟨hbody, ?_⟩
  have hc : ¬(st.iamToken = "" ∨ st.iamTokenExpirationTime < now) := by
    push_neg
    exact ⟨htok, hexp⟩
  show (send st now f p (writeBody ms)).postBody = _
  simp only [send]
  rw [if_neg hc]
  rw [hbody]

/-- Witness for C10: a batch whose single metric has one non-numeric field, sent
from a state with a valid cached token. -/
theorem C10_empty_batch_null_witness :
    writeBody [testMetricNonNumeric] = "\x7b\"metrics\":null\x7d\n" ∧
    (write testState2 ⟨0, .fetchErr "down", testResp, [testMetricNonNumeric]⟩).postBody =
      some "\x7b\"metrics\":null\x7d\n" :=
  C10_empty_batch_null testState2 0 (.fetchErr "down") testResp [testMetricNonNumeric]
    (by decide) (by decide) (by decide)

end YCM
